import Mathlib

/-!
Verification of the VegaFusion planner, transform engine, expression compiler
and SQL dialect layer, as a shallow embedding in Lean 4.

Each Rust function relevant to the checked properties is translated into an
executable Lean definition.  Machine floats (`f64`) are idealized as rationals
(`ℚ`); Rust `Result` becomes `Except VfErr`; panics (`todo!`, `unreachable!`)
become a distinguished error constructor.  Hash maps and hash sets become
association lists and lists.
-/

/-- Closed error set of the system (spec section 6/7): compilation,
specification, sql-not-supported, type, internal, not-constant errors.
A Rust panic (`todo!`) is modeled by `notImplemented`. -/
inductive VfErr where
  | compilation
  | specification
  | sqlNotSupported
  | typeErr
  | internalErr
  | notConstant
  | notImplemented
  deriving DecidableEq, Repr

namespace Planning

/-- From `vegafusion-core/src/spec/data.rs`: three-way supportability
classification of a dataset. -/
inductive DataSupported where
  | unsupported
  | partiallySupported
  | supported
  deriving DecidableEq, Repr

/-- A transform of a dataset's pipeline.  The 15 operator variants are
irrelevant to the planner's split, which only consults the `supported()`
predicate and `output_signals()`; they are carried as data here, with `tag`
distinguishing individual transforms. -/
structure TransformSpecE where
  supported : Bool
  output_signals : List String
  tag : ℕ
  deriving DecidableEq, Repr

/-- From `vegafusion-core/src/spec/data.rs`: the subset of `DataSpec` fields
the planner mutates. -/
structure DataSpec where
  name : String
  source : Option String := none
  url : Option String := none
  values : Option String := none
  format : Option String := none
  -- the Rust field is named `on`; that word is a keyword in Lean
  on_ : Option String := none
  transform : List TransformSpecE := []
  deriving DecidableEq, Repr

/-- Modelled from the spec: `TaskScope` holds "per-data output-signal names
(signals emitted by transforms in that dataset)"; `DataSpec::output_signals`
is not under `src/`, so it is the concatenation of the output signals of the
dataset's transforms. -/
def DataSpec.output_signals (d : DataSpec) : List String :=
  (d.transform.map (·.output_signals)).flatten

/-- A group mark of the server spec: its datasets and nested group marks
(`MarkSpec` restricted to the fields the extract visitor touches). -/
inductive MarkTree where
  | group (data : List DataSpec) (marks : List MarkTree)

/-- The chart specification: top-level datasets plus nested group marks. -/
structure ChartSpecE where
  data : List DataSpec := []
  marks : List MarkTree := []

/-- Modelled from the spec: `get_nested_group_mut(scope_path)` navigates the
nested mark groups by index (spec section 4.7); pushing a dataset onto the
group at `scope`.  Out-of-range indices are internal errors. -/
def MarkTree.push_data : MarkTree → List ℕ → DataSpec → Except VfErr MarkTree
  | .group ds ms, [], d => .ok (.group (ds ++ [d]) ms)
  | .group ds ms, i :: rest, d =>
    match ms[i]? with
    | none => .error .internalErr
    | some child =>
      (child.push_data rest d).map fun c => .group ds (ms.set i c)

/-- Modelled from the spec: push a dataset onto the data list of the group at
`scope` (`self.server_spec.data.push` when the scope is empty, otherwise
`get_nested_group_mut(scope)?.data.push`). -/
def ChartSpecE.push_data (spec : ChartSpecE) (scope : List ℕ) (d : DataSpec) :
    Except VfErr ChartSpecE :=
  match scope with
  | [] => .ok { spec with data := spec.data ++ [d] }
  | i :: rest =>
    match spec.marks[i]? with
    | none => .error .internalErr
    | some child =>
      (child.push_data rest d).map fun c => { spec with marks := spec.marks.set i c }

/-- Read accessor matching `push_data`: the data list of the group at `scope`. -/
def MarkTree.data_at : MarkTree → List ℕ → Except VfErr (List DataSpec)
  | .group ds _, [] => .ok ds
  | .group _ ms, i :: rest =>
    match ms[i]? with
    | none => .error .internalErr
    | some child => child.data_at rest

/-- Read accessor matching `ChartSpecE.push_data`. -/
def ChartSpecE.data_at (spec : ChartSpecE) (scope : List ℕ) :
    Except VfErr (List DataSpec) :=
  match scope with
  | [] => .ok spec.data
  | i :: rest =>
    match spec.marks[i]? with
    | none => .error .internalErr
    | some child => child.data_at rest

/-- Modelled from the spec: `TaskScope` (spec sections 3 and 4.7).  It binds
data names at scopes and records per-dataset output-signal names. -/
structure TaskScope where
  data_vars : List (String × List ℕ) := []
  data_signals : List (String × String × List ℕ) := []
  deriving DecidableEq, Repr

/-- Modelled from the spec: "adding a new data name `n` at scope `s` requires
`n` unused at `s`". -/
def TaskScope.add_variable (ts : TaskScope) (name : String) (scope : List ℕ) :
    Except VfErr TaskScope :=
  if (name, scope) ∈ ts.data_vars then .error .internalErr
  else .ok { ts with data_vars := ts.data_vars ++ [(name, scope)] }

/-- Remove the entry recording that dataset `d` emits signal `sig` at `scope`. -/
def TaskScope.erase_signal (ts : TaskScope) (sig : String) (scope : List ℕ) :
    TaskScope :=
  { ts with
    data_signals :=
      ts.data_signals.filter fun e => ¬(e.2.1 = sig ∧ e.2.2 = scope) }

/-- Modelled from the spec: "removing a data-signal requires it to exist". -/
def TaskScope.remove_data_signal (ts : TaskScope) (sig : String) (scope : List ℕ) :
    Except VfErr TaskScope :=
  if ts.data_signals.any fun e => e.2.1 = sig ∧ e.2.2 = scope then
    .ok (ts.erase_signal sig scope)
  else .error .internalErr

/-- Modelled from the spec: record that dataset `name` emits `sig` at `scope`. -/
def TaskScope.add_data_signal (ts : TaskScope) (name sig : String) (scope : List ℕ) :
    Except VfErr TaskScope :=
  .ok { ts with data_signals := ts.data_signals ++ [(name, sig, scope)] }

/-- Translation of `ExtractServerDataVisitor::visit_data`
(`vegafusion-core/src/planning/extract.rs`, lines 44-147).  The visitor state
(`server_spec`, `task_scope`) is threaded explicitly; the classification that
`get_supported_data_variables` computed for this dataset is
`classification` (`None` when the variable is absent from the map).  Returns
the updated server spec, the mutated client dataset, and the updated scope. -/
def visit_data (classification : Option DataSupported) (data : DataSpec)
    (scope : List ℕ) (server_spec : ChartSpecE) (task_scope : TaskScope) :
    Except VfErr (ChartSpecE × DataSpec × TaskScope) :=
  match classification with
  | some .partiallySupported =>
    -- Split transforms at first unsupported transform.
    let server_tx := data.transform.takeWhile (·.supported)
    let client_tx := data.transform.dropWhile (·.supported)
    let server_name := "_server_" ++ data.name
    let server_data :=
      { data with name := server_name, transform := server_tx }
    let server_signals := server_data.output_signals
    do
      let server_spec ← server_spec.push_data scope server_data
      let client_data :=
        { data with
          source := some server_name
          format := none
          values := none
          transform := client_tx
          on_ := none
          url := none }
      let task_scope ← task_scope.add_variable server_name scope
      let task_scope ←
        server_signals.foldlM
          (fun ts sig => do
            let ts ← ts.remove_data_signal sig scope
            ts.add_data_signal server_name sig scope)
          task_scope
      return (server_spec, client_data, task_scope)
  | _ =>
    -- DataSupported::Supported (the wildcard arm of the Rust match; it also
    -- catches `Some(Unsupported)` and `None`)
    do
      let server_spec ← server_spec.push_data scope data
      let client_data :=
        { data with
          format := none
          source := none
          values := none
          transform := []
          on_ := none
          url := none }
      return (server_spec, client_data, task_scope)

/-- A transform carrying only what the planner consults. -/
def c1tx (b : Bool) (t : ℕ) : TransformSpecE :=
  { supported := b, output_signals := [], tag := t }

/-- Dataset of spec scenario 4: pipeline
`[filter, aggregate, formula_with_unsupported_fn, project]`. -/
def c1data : DataSpec :=
  { name := "d", url := some "data.csv"
    transform := [c1tx true 0, c1tx true 1, c1tx false 2, c1tx true 3] }

/-- Dataset used to exhibit the `Unsupported` behavior of the extract
visitor. -/
def c2data : DataSpec :=
  { name := "d", url := some "data.csv" }

end Planning

namespace Bin

/-- Fuel bound for the step-growing `while` loop of `calculate_bin_params`.
The Rust loop can in principle run unboundedly (`step *= base`); exhausting
the fuel models non-termination as an internal error. -/
def binFuel : ℕ := 1000

/-- Absolute value written with an explicit comparison (the shape `f64::abs`
evaluates by). -/
def qAbs (q : ℚ) : ℚ := if q < 0 then -q else q

/-- Iteration count helper for a rational floor-logarithm: how many times `b`
divides into `x` while staying at least `1` (`x ≥ 1` intended). -/
def flogAux (b : ℚ) (fuel : ℕ) (x : ℚ) : ℕ :=
  if fuel = 0 then 0
  else if b ≤ x then flogAux b (fuel - 1) (x / b) + 1 else 0
  termination_by fuel
  decreasing_by omega

/-- Iteration count helper for `x < 1`: the least `k` with `x * b^k ≥ 1`. -/
def clogAux (b : ℚ) (fuel : ℕ) (x : ℚ) : ℕ :=
  if fuel = 0 then 0
  else if 1 ≤ x then 0 else clogAux b (fuel - 1) (x * b) + 1
  termination_by fuel
  decreasing_by omega

/-- `⌊log_b x⌋` computed exactly on rationals (for `b > 1`, `x > 0`; the fuel
is ample for such inputs).  This replaces the `f64` quotient
`x.ln() / b.ln()` followed by `floor`. -/
def ratFloorLog (b x : ℚ) : ℤ :=
  if 1 ≤ x then (flogAux b (x.num.natAbs + 1) x : ℤ)
  else -(clogAux b (x.den + 1) x : ℤ)

/-- `⌈log_b x⌉` computed exactly on rationals. -/
def ratCeilLog (b x : ℚ) : ℤ :=
  let f := ratFloorLog b x
  if b ^ f = x then f else f + 1

/-- `round(log_b x)` computed exactly on rationals: the fractional part is at
least one half exactly when `x^2 ≥ b^(2⌊log⌋+1)`.  An exact tie would need
`x = b^(k+1/2)`, which is irrational for the integer bases in use, so the tie
direction is immaterial. -/
def ratRoundLog (b x : ℚ) : ℤ :=
  let k := ratFloorLog b x
  if b ^ (2 * k + 1) ≤ x ^ 2 then k + 1 else k

/-- Parameters of the `Bin` transform message
(`vegafusion-rt-datafusion/src/transform/bin.rs`): `extent` and `span` are
expressions in the source, evaluated through the expression compiler before
use; here they enter already evaluated (`calculate_bin_params` receives the
extent, `spanOpt` the optional span override). -/
structure BinTx where
  maxbins : ℚ := 10
  base : ℚ := 10
  minstep : ℚ := 0
  step : Option ℚ := none
  steps : List ℚ := []
  divide : List ℚ := [5, 2]
  nice : Bool := true
  anchor : Option ℚ := none
  spanOpt : Option ℚ := none
  deriving DecidableEq, Repr

/-- Result record of `calculate_bin_params`. -/
structure BinParams where
  start : ℚ
  stop : ℚ
  step : ℚ
  n : ℤ
  deriving DecidableEq, Repr

/-- The `while (span / step).ceil() > tx.maxbins { step *= tx.base }` loop,
with explicit fuel. -/
def stepWhileLoop (base maxbins span : ℚ) (fuel : ℕ) (step : ℚ) : Option ℚ :=
  if maxbins < (⌈span / step⌉ : ℚ) then
    if fuel = 0 then none
    else stepWhileLoop base maxbins span (fuel - 1) (step * base)
  else some step
  termination_by fuel
  decreasing_by omega

/-- Step selection of `calculate_bin_params` (lines 321-356): a provided
`step` wins; else the first element of `steps` exceeding `span / maxbins`
(falling back to the last element); else the span-derived step grown by
`base` while there are too many bins and lowered by the `divide` candidates
when constraints keep holding. -/
def chooseStep (tx : BinTx) (span : ℚ) : Option ℚ :=
  match tx.step with
  | some s => some s
  | none =>
    if tx.steps.isEmpty then
      let level := ratCeilLog tx.base tx.maxbins
      let minstep := tx.minstep
      let step0 := max minstep (tx.base ^ (ratRoundLog tx.base span - level))
      match stepWhileLoop tx.base tx.maxbins span binFuel step0 with
      | none => none
      | some step1 =>
        some (tx.divide.foldl
          (fun st d =>
            let v := st / d
            if minstep ≤ v ∧ span / v ≤ tx.maxbins then v else st)
          step1)
    else
      let min_step_size := span / tx.maxbins
      let valid_steps := tx.steps.filter fun s => min_step_size < s
      some (valid_steps.headD (tx.steps.getLastD 0))

/-- Translation of `calculate_bin_params`
(`vegafusion-rt-datafusion/src/transform/bin.rs`, lines 282-397) over exact
rationals: `f64` arithmetic is idealized as `ℚ`, the `approx_eq!` float
comparisons as exact equality, and `ln`/`powf` quotients as the exact
integer-log helpers above.  The extent arrives already evaluated
(`[min_, max_] = extent`). -/
def calculate_bin_params (tx : BinTx) (lo hi : ℚ) : Except VfErr BinParams :=
  if hi < lo then .error .specification
  else
    let span0 : ℚ := if lo ≠ hi then hi - lo else if lo ≠ 0 then qAbs lo else 1
    let span := tx.spanOpt.getD span0
    match chooseStep tx span with
    | none => .error .internalErr
    | some step =>
      -- precision: `v = step.ln(); if v ≥ 0 { 0 } else { ⌊-v/logb⌋ + 1 }`
      let precision : ℤ := if 1 ≤ step then 0 else ratFloorLog tx.base (1 / step) + 1
      let eps := tx.base ^ (-precision - 1)
      let niced : ℚ × ℚ :=
        if tx.nice then
          let v := (⌊lo / step + eps⌋ : ℚ) * step
          let min2 := if lo < v then v - step else v
          let max2 := (⌈hi / step⌉ : ℚ) * step
          (min2, max2)
        else (lo, hi)
      let start := niced.1
      let stop := if niced.2 ≠ niced.1 then niced.2 else niced.1 + step
      let anchored : ℚ × ℚ :=
        match tx.anchor with
        | some anchor =>
          let shift := anchor - (start + step * (⌊(anchor - start) / step⌋ : ℚ))
          (start + shift, stop + shift)
        | none => (start, stop)
      .ok
        { start := anchored.1
          stop := anchored.2
          step := step
          n := ⌈(anchored.2 - anchored.1) / step⌉ }

/-- Bin lower edges `(0..n).map(|i| start + step * i)` used by the transform
evaluator. -/
def bin_starts (start step : ℚ) (n : ℤ) : List ℚ :=
  (List.range n.toNat).map fun i => start + step * (i : ℚ)

/-- The per-row lookup result: the Rust function returns `f64::NEG_INFINITY`
or `f64::INFINITY` for out-of-range rows, modeled as dedicated constructors. -/
inductive BinEdge where
  | negInf
  | posInf
  | val (q : ℚ)
  deriving DecidableEq, Repr

/-- Translation of `lookup_bin_edge`
(`vegafusion-rt-datafusion/src/transform/bin.rs`, lines 259-272); the float
literal `1.0e-14` is idealized as the exact rational `10^-14`. -/
def lookup_bin_edge (v : ℚ) (starts : List ℚ) (step last_stop : ℚ) : BinEdge :=
  let n : ℤ := starts.length
  let bin_ind : ℤ := ⌊1 / 10 ^ 14 + (v - starts.headD 0) / step⌋
  if bin_ind < 0 then .negInf
  else if bin_ind = n ∧ qAbs (v - last_stop) ≤ 1 / 10 ^ 14 then .val (starts.getLastD 0)
  else if n ≤ bin_ind then .posInf
  else .val (starts.getD bin_ind.toNat 0)

end Bin

namespace Member

/-- Arrow-style logical types relevant to `compile_member`
(`vega-fusion/src/expression/compiler/member.rs`). -/
inductive DataTypeE where
  | boolean
  | int64
  | float64
  | utf8
  | listT (elem : DataTypeE)
  | structT (fields : List (String × DataTypeE))

/-- Scalar values (`ScalarValue`): numbers are idealized as `ℚ`. -/
inductive ScalarE where
  | num (q : ℚ)
  | str (s : String)
  | boolean (b : Bool)
  | structV (fields : List (String × ScalarE))

mutual

/-- The logical type of a scalar. -/
def ScalarE.get_datatype : ScalarE → DataTypeE
  | .num _ => .float64
  | .str _ => .utf8
  | .boolean _ => .boolean
  | .structV fields => .structT (fieldDatatypes fields)

/-- The logical types of a struct scalar's fields. -/
def fieldDatatypes : List (String × ScalarE) → List (String × DataTypeE)
  | [] => []
  | (n, s) :: rest => (n, s.get_datatype) :: fieldDatatypes rest

end

/-- `ScalarValue`'s `Display`: strings print bare, numbers without a
fractional part print as integers. -/
def ScalarE.toDisplay : ScalarE → String
  | .num q => if q.den = 1 then toString q.num else toString q
  | .str s => s
  | .boolean b => toString b
  | .structV _ => "{}"

/-- The subset of the parsed chart-expression AST that the checked member
accesses exercise: literals, identifiers, and binary `+` (the constant-folded
computed property of scenario 2). -/
inductive ExpressionE where
  | numLit (q : ℚ)
  | strLit (s : String)
  | ident (name : String)
  | plus (a b : ExpressionE)

/-- `MemberExpression { object, property, computed }`. -/
structure MemberExpression where
  object : ExpressionE
  property : ExpressionE
  computed : Bool

/-- The expression IR produced by the compiler, restricted to the node kinds
`compile_member` can emit or consume: literals, column references, binary
`+`, and the single-argument `get` scalar UDFs built by
`make_get_object_member_udf` / `make_get_element_udf`. -/
inductive CompiledExpr where
  | lit (s : ScalarE)
  | column (name : String)
  | binaryPlus (a b : CompiledExpr)
  | getUdf (name : String) (arg : CompiledExpr)

/-- `CompilationConfig { signal_scope, .. }`. -/
structure CompilationConfig where
  signal_scope : List (String × ScalarE) := []

/-- Signal lookup in the config scope. -/
def CompilationConfig.lookupSignal (cfg : CompilationConfig) (name : String) :
    Option ScalarE :=
  (cfg.signal_scope.find? fun e => e.1 = name).map (·.2)

/-- Modelled from the spec: the `compile` dispatcher (spec section 4.4) for
the AST subset above — literals become `Literal(Scalar)`, a non-`datum`
identifier resolves as a signal (unknown identifier is a
`CompilationError`), binary `+` maps to the IR operator. -/
def compile (e : ExpressionE) (config : CompilationConfig) :
    Except VfErr CompiledExpr :=
  match e with
  | .numLit q => .ok (.lit (.num q))
  | .strLit s => .ok (.lit (.str s))
  | .ident name =>
    match config.lookupSignal name with
    | some s => .ok (.lit s)
    | none => .error .compilation
  | .plus a b => do
    let ca ← compile a config
    let cb ← compile b config
    return .binaryPlus ca cb

/-- Modelled from the spec: `eval_to_scalar` (spec section 4.2) reduces a
constant-foldable tree to a scalar; a remaining non-foldable reference is
`NotConstant`; `+` folds number with number and string with string
(scenario 2: `"b"+"ar"` folds to `"bar"`), and fails with `CompilationError`
on mixed operands (scenario 2: `1+"x"`). -/
def eval_to_scalar : CompiledExpr → Except VfErr ScalarE
  | .lit s => .ok s
  | .column _ => .error .notConstant
  | .getUdf _ _ => .error .notConstant
  | .binaryPlus a b => do
    let sa ← eval_to_scalar a
    let sb ← eval_to_scalar b
    match sa, sb with
    | .num x, .num y => return .num (x + y)
    | .str x, .str y => return .str (x ++ y)
    | _, _ => .error .compilation

/-- Restricted model of the Rust `str::parse::<f64>` fallback: unsigned
integer strings parse, which covers every index form reachable here. -/
def parseF64 (s : String) : Option ℚ :=
  (s.toNat?).map fun n => (n : ℚ)

/-- Truncation toward zero, the `cast`-to-`Int64` behavior on in-range
values. -/
def ratTrunc (q : ℚ) : ℤ :=
  if 0 ≤ q then ⌊q⌋ else ⌈q⌉

/-- The type of the compiled object, from the schema for columns and from
the scalar for literals (`data_type(&compiled_object, schema)`). -/
def data_type (e : CompiledExpr) (schema : List (String × DataTypeE)) :
    Except VfErr DataTypeE :=
  match e with
  | .lit s => .ok s.get_datatype
  | .column name =>
    match (schema.find? fun f => f.1 = name).map (·.2) with
    | some t => .ok t
    | none => .error .internalErr
  | _ => .error .internalErr

/-- `make_get_object_member_udf` (member.rs lines 110-152): find the struct
field named by the property; a missing field is a `CompilationError`. -/
def make_get_object_member_udf (object_type : DataTypeE)
    (property_name : String) (obj : CompiledExpr) : Except VfErr CompiledExpr :=
  match object_type with
  | .structT fields =>
    match fields.find? fun f => f.1 = property_name with
    | some _ => .ok (.getUdf ("get[" ++ property_name ++ "]") obj)
    | none => .error .compilation
  | _ => .error .compilation

/-- Whether the object is the `datum` sentinel identifier. -/
def isDatum : ExpressionE → Bool
  | .ident name => name = "datum"
  | _ => false

/-- Translation of `compile_member`
(`vega-fusion/src/expression/compiler/member.rs`, lines 24-108).  A computed
property is compiled and constant-folded first (so its failure precedes the
`datum` check); `datum` member access produces a column; struct objects
produce the `get[field]` UDF; `obj.length` on a non-struct object reaches
`todo!(...)`, a panic, modeled as the `notImplemented` error; list- and
string-typed objects with a numeric index produce `get[i]`; everything else
is a `CompilationError`. -/
def compile_member (node : MemberExpression) (config : CompilationConfig)
    (schema : List (String × DataTypeE)) : Except VfErr CompiledExpr := do
  let (property_string, index) ←
    if node.computed then do
      let compiled_property ← compile node.property config
      let evaluated_property ← eval_to_scalar compiled_property
      let prop_str := evaluated_property.toDisplay
      let index : Option ℤ :=
        match evaluated_property with
        | .num q => some (ratTrunc q)
        | _ => (parseF64 prop_str).map ratTrunc
      pure (prop_str, index)
    else
      match node.property with
      | .ident name => pure (name, (none : Option ℤ))
      | _ => .error .compilation
  if isDatum node.object then
    return .column property_string
  else
    let compiled_object ← compile node.object config
    let dtype ← data_type compiled_object schema
    match dtype with
    | .structT fields =>
      make_get_object_member_udf (.structT fields) property_string
        compiled_object
    | dtype =>
      if property_string = "length" then
        -- `todo!("Special case to treat foo.length as length(foo) ...")`
        .error .notImplemented
      else if dtype matches .listT _ | .utf8 then
        match index with
        | some i => return .getUdf ("get[" ++ toString i ++ "]") compiled_object
        | none => .error .compilation
      else .error .compilation

end Member

namespace Dialect

/-- DataFusion binary operators appearing in the dialect tables. -/
inductive Operator where
  | eq
  | notEq
  | lt
  | ltEq
  | gt
  | gtEq
  | plus
  | minus
  | multiply
  | divide
  | modulo
  | and
  | or
  deriving DecidableEq, Repr

/-- SQL binary operators of the emitted AST. -/
inductive SqlBinOp where
  | eq
  | notEq
  | lt
  | ltEq
  | gt
  | gtEq
  | plus
  | minus
  | multiply
  | divide
  | modulo
  | and
  | or
  deriving DecidableEq, Repr

/-- The `sqlparser` data types named by the embedded dialect tables. -/
inductive SqlDataTypeE where
  | boolean
  | tinyInt
  | smallInt
  | int
  | integer
  | bigInt
  | float
  | real
  | double
  | doublePrecision
  | varchar
  | text
  | string
  | custom (name : String)
  deriving DecidableEq, Repr

/-- Arrow data types keyed by the `cast_datatypes` tables. -/
inductive ArrowType where
  | boolean
  | int8
  | uint8
  | int16
  | uint16
  | int32
  | uint32
  | int64
  | float16
  | float32
  | float64
  | utf8
  deriving DecidableEq, Repr

/-- The emitted SQL expression AST (the `sqlparser::ast::Expr` subset the
dialect transformers construct): values, identifiers, function calls, binary
operations and casts. -/
inductive SqlExpr where
  | value (v : String)
  | ident (name : String)
  | function (name : String) (args : List SqlExpr)
  | binaryOp (op : SqlBinOp) (l r : SqlExpr)
  | cast (e : SqlExpr) (t : SqlDataTypeE)

/-- `ValuesMode` (`vegafusion-sql/src/dialect/mod.rs`, lines 64-78). -/
inductive ValuesMode where
  | valuesWithSubqueryColumnAliases (explicit_row : Bool)
  | valuesWithSelectColumnAliases (explicit_row : Bool) ( column_prefix : String)
      (base_index : ℕ)
  | selectUnion
  deriving DecidableEq, Repr

/-- The binary-operator transformers (mod.rs lines 1428-1452): only
`ModulusOpToFunction` exists. -/
inductive BinaryOperatorTransformer where
  | modulusOpToFunction
  deriving DecidableEq, Repr

/-- `ModulusOpToFunction::transform`: emit `MOD(lhs, rhs)`. -/
def BinaryOperatorTransformer.transform :
    BinaryOperatorTransformer → SqlExpr → SqlExpr → SqlExpr
  | .modulusOpToFunction, lhs, rhs => .function "MOD" [lhs, rhs]

/-- The function transformers used by the embedded dialects (mod.rs lines
1474-1660): rename, argument-casting, `log` with an explicit base argument,
and `log` lowered to a quotient of `ln`s.  (`ExpWithPowFunctionTransformer`
and `DateAddToIntervalAddition` serve dialects not embedded here.) -/
inductive FunctionTransformer where
  | rename (name : String)
  | castArgs (name : String) (dtype : SqlDataTypeE)
  | logBase (base : ℤ) (base_first : Bool)
  | logBaseWithLn (base : ℤ) (castDtype : Option SqlDataTypeE)
  deriving DecidableEq, Repr

/-- The `FunctionTransformer::transform` methods, acting on already-emitted
argument expressions (the Rust methods call `to_sql` on each argument; the
emission of the arguments themselves is the caller's business here). -/
def FunctionTransformer.transform (t : FunctionTransformer)
    (args : List SqlExpr) : SqlExpr :=
  match t with
  | .rename name => .function name args
  | .castArgs name dtype => .function name (args.map fun a => .cast a dtype)
  | .logBase base base_first =>
    let baseArg := SqlExpr.value (toString base)
    .function "log" (if base_first then baseArg :: args else args ++ [baseArg])
  | .logBaseWithLn base castDtype =>
    let sqlArgs :=
      match castDtype with
      | some dt => args.map fun a => SqlExpr.cast a dt
      | none => args
    .binaryOp .divide (.function "ln" sqlArgs)
      (.function "ln" [.value (toString base)])

/-- The cast transformers (mod.rs lines 1713-1726). -/
inductive CastTransformer where
  | boolToStringWithCase
  deriving DecidableEq, Repr

/-- The per-backend capability record (`Dialect`, mod.rs lines 80-143),
without the `parse_dialect` handle (an external parser object). -/
structure DialectE where
  quote_style : String
  binary_ops : List Operator
  binary_op_transforms : List (Operator × BinaryOperatorTransformer)
  scalar_functions : List String
  aggregate_functions : List String
  window_functions : List String
  scalar_transformers : List (String × FunctionTransformer)
  aggregate_transformers : List (String × FunctionTransformer)
  values_mode : ValuesMode
  supports_null_ordering : Bool
  impute_fully_qualified : Bool
  joinaggregate_fully_qualified : Bool
  supports_bounded_window_frames : Bool
  supports_frames_in_navigation_window_functions : Bool
  cast_datatypes : List (ArrowType × SqlDataTypeE)
  cast_transformers : List ((ArrowType × ArrowType) × CastTransformer)
  cast_propagates_null : Bool
  supports_non_finite_floats : Bool

/-- `Dialect::bigquery()` (mod.rs lines 274-355). -/
def DialectE.bigquery : DialectE :=
  { quote_style := "\x60"
    binary_ops :=
      [.eq, .notEq, .lt, .ltEq, .gt, .gtEq, .plus, .minus, .multiply,
       .divide, .and, .or]
    binary_op_transforms := [(.modulo, .modulusOpToFunction)]
    scalar_functions :=
      ["abs", "acos", "asin", "atan", "atan2", "ceil", "coalesce", "cos",
       "exp", "floor", "ln", "log10", "pow", "round", "sin", "sqrt", "tan",
       "trunc"]
    aggregate_functions := ["min", "max", "count", "avg", "sum"]
    window_functions :=
      ["row_number", "rank", "dense_rank", "percent_rank", "cume_dist",
       "ntile", "lag", "lead", "first_value", "last_value", "nth_value"]
    scalar_transformers :=
      [("log", .rename "log10"),
       ("log2", .logBase 2 false),
       ("signum", .rename "sign"),
       ("random", .rename "rand")]
    aggregate_transformers := []
    values_mode := .selectUnion
    supports_null_ordering := true
    impute_fully_qualified := false
    joinaggregate_fully_qualified := true
    supports_bounded_window_frames := true
    supports_frames_in_navigation_window_functions := false
    cast_datatypes :=
      [(.boolean, .boolean), (.int8, .int), (.uint8, .int), (.int16, .int),
       (.uint16, .int), (.int32, .int), (.uint32, .int), (.int64, .int),
       (.float16, .custom "float64"), (.float32, .custom "float64"),
       (.float64, .custom "float64"), (.utf8, .string)]
    cast_transformers := []
    cast_propagates_null := true
    supports_non_finite_floats := true }

/-- `Dialect::redshift()` (mod.rs lines 1098-1208). -/
def DialectE.redshift : DialectE :=
  { quote_style := "\""
    binary_ops :=
      [.eq, .notEq, .lt, .ltEq, .gt, .gtEq, .plus, .minus, .multiply,
       .divide, .modulo, .and, .or]
    binary_op_transforms := []
    scalar_functions :=
      ["abs", "acos", "asin", "atan", "atan2", "ceil", "coalesce", "cos",
       "exp", "floor", "pow", "round", "sin", "sqrt", "tan", "trunc",
       "random"]
    aggregate_functions :=
      ["min", "max", "count", "avg", "sum", "var_pop", "stddev_pop"]
    window_functions :=
      ["row_number", "rank", "dense_rank", "percent_rank", "cume_dist",
       "ntile", "lag", "lead", "first_value", "last_value", "nth_value"]
    scalar_transformers :=
      [("log2", .logBaseWithLn 2 (some .doublePrecision)),
       ("ln", .castArgs "ln" .doublePrecision),
       ("log", .castArgs "log" .doublePrecision),
       ("log10", .castArgs "log" .doublePrecision),
       ("signum", .rename "sign")]
    aggregate_transformers :=
      [("var", .rename "var_samp"), ("stddev", .rename "stddev_samp")]
    values_mode := .selectUnion
    supports_null_ordering := true
    impute_fully_qualified := false
    joinaggregate_fully_qualified := true
    supports_bounded_window_frames := true
    supports_frames_in_navigation_window_functions := true
    cast_datatypes :=
      [(.boolean, .boolean), (.int8, .smallInt), (.uint8, .smallInt),
       (.int16, .smallInt), (.uint16, .integer), (.int32, .integer),
       (.uint32, .bigInt), (.int64, .bigInt), (.float16, .real),
       (.float32, .real), (.float64, .doublePrecision), (.utf8, .text)]
    cast_transformers := [((.boolean, .utf8), .boolToStringWithCase)]
    cast_propagates_null := false
    supports_non_finite_floats := true }

/-- `Dialect::snowflake()` (mod.rs lines 1210-1308). -/
def DialectE.snowflake : DialectE :=
  { quote_style := "\""
    binary_ops :=
      [.eq, .notEq, .lt, .ltEq, .gt, .gtEq, .plus, .minus, .multiply,
       .divide, .modulo, .and, .or]
    binary_op_transforms := []
    scalar_functions :=
      ["abs", "acos", "asin", "atan", "atan2", "ceil", "coalesce", "cos",
       "exp", "floor", "ln", "pow", "round", "sin", "sqrt", "tan", "trunc",
       "random"]
    aggregate_functions :=
      ["min", "max", "count", "avg", "sum", "median", "var_pop",
       "stddev_pop", "covar_pop", "corr"]
    window_functions :=
      ["row_number", "rank", "dense_rank", "percent_rank", "cume_dist",
       "ntile", "lag", "lead", "first_value", "last_value", "nth_value"]
    scalar_transformers :=
      [("log", .logBase 10 true),
       ("log10", .logBase 10 true),
       ("log2", .logBase 2 true),
       ("signum", .rename "sign")]
    aggregate_transformers :=
      [("var", .rename "var_samp"), ("stddev", .rename "stddev_samp"),
       ("covar", .rename "covar_samp")]
    values_mode := .valuesWithSelectColumnAliases false "COLUMN" 1
    supports_null_ordering := true
    impute_fully_qualified := false
    joinaggregate_fully_qualified := false
    supports_bounded_window_frames := true
    supports_frames_in_navigation_window_functions := true
    cast_datatypes :=
      [(.boolean, .boolean), (.int8, .tinyInt), (.uint8, .smallInt),
       (.int16, .smallInt), (.uint16, .integer), (.int32, .integer),
       (.uint32, .bigInt), (.int64, .bigInt), (.float16, .float),
       (.float32, .float), (.float64, .double), (.utf8, .varchar)]
    cast_transformers := []
    cast_propagates_null := true
    supports_non_finite_floats := true }

/-- The one-to-one rendering of a DataFusion operator as a SQL operator. -/
def sqlOpOf : Operator → SqlBinOp
  | .eq => .eq
  | .notEq => .notEq
  | .lt => .lt
  | .ltEq => .ltEq
  | .gt => .gt
  | .gtEq => .gtEq
  | .plus => .plus
  | .minus => .minus
  | .multiply => .multiply
  | .divide => .divide
  | .modulo => .modulo
  | .and => .and
  | .or => .or

/-- Modelled from the spec: binary-operator emission (spec section 4.3.2) —
a native operator is emitted directly, else a registered transformer is
delegated to, else the emission fails with `UnsupportedForDialect`. -/
def DialectE.emitBinaryOp (d : DialectE) (op : Operator) (l r : SqlExpr) :
    Except VfErr SqlExpr :=
  if op ∈ d.binary_ops then .ok (.binaryOp (sqlOpOf op) l r)
  else
    match (d.binary_op_transforms.find? fun e => e.1 = op).map (·.2) with
    | some t => .ok (t.transform l r)
    | none => .error .sqlNotSupported

/-- Modelled from the spec: scalar-function emission (spec section 4.3.2) —
a native function name is emitted directly, else a registered transformer is
delegated to, else the emission fails with `UnsupportedForDialect`. -/
def DialectE.emitScalarFunction (d : DialectE) (name : String)
    (args : List SqlExpr) : Except VfErr SqlExpr :=
  if name ∈ d.scalar_functions then .ok (.function name args)
  else
    match (d.scalar_transformers.find? fun e => e.1 = name).map (·.2) with
    | some t => .ok (t.transform args)
    | none => .error .sqlNotSupported


end Dialect

namespace Pipeline

open Member

/-- A signal map (`HashMap<String, ScalarValue>`) as an association list:
`insert` replaces the value in place when the key is present and appends
otherwise. -/
def insertSignal (m : List (String × ScalarE)) (name : String) (val : ScalarE) :
    List (String × ScalarE) :=
  if m.any (·.1 = name) then
    m.map fun e => if e.1 = name then (name, val) else e
  else m ++ [(name, val)]

/-- Insert a batch of `(name, value)` pairs in order. -/
def insertAll (m : List (String × ScalarE))
    (upd : List (String × ScalarE)) : List (String × ScalarE) :=
  upd.foldl (fun acc e => insertSignal acc e.1 e.2) m

/-- Signal lookup (first binding wins, as association-list shadowing never
arises: `insertSignal` keeps keys unique). -/
def lookupSig : List (String × ScalarE) → String → Option ScalarE
  | [], _ => none
  | e :: rest, name => if e.1 = name then some e.2 else lookupSig rest name

/-- A transform as the pipeline sees it (`TransformTrait`): an evaluator from
a dataframe and a compilation config to a new dataframe plus emitted signal
values, and the static list of output-signal names.  The dataframe type is
abstract (`δ`). -/
structure TransformE (δ : Type) where
  call : δ → CompilationConfig → Except VfErr (δ × List ScalarE)
  output_signals : List String

/-- The loop body of `TransformPipeline::call`
(`vegafusion-rt-datafusion/src/transform/pipeline.rs`, lines 35-60): the
mutable `result_df`, `result_signals` and `config` are the three
accumulators. -/
def call_loop {δ : Type} (txs : List (TransformE δ)) (df : δ)
    (sigs : List (String × ScalarE)) (config : CompilationConfig) :
    Except VfErr (δ × List (String × ScalarE)) :=
  match txs with
  | [] => .ok (df, sigs)
  | tx :: rest => do
    let r ← tx.call df config
    let upd := tx.output_signals.zip r.2
    call_loop rest r.1 (insertAll sigs upd)
      { config with signal_scope := insertAll config.signal_scope upd }

/-- `TransformPipeline::call`: run the loop from an empty signal map. -/
def TransformPipeline.call {δ : Type} (txs : List (TransformE δ)) (df : δ)
    (config : CompilationConfig) :
    Except VfErr (δ × List (String × ScalarE)) :=
  call_loop txs df [] config


/-- A concrete transform for the C10 witness: increments the dataframe
handle and emits signal `a`. -/
def w1 : TransformE ℕ :=
  { call := fun df _ => .ok (df + 1, [.num 1]), output_signals := ["a"] }

/-- A concrete transform for the C10 witness: doubles the dataframe handle
and emits signal `b`. -/
def w2 : TransformE ℕ :=
  { call := fun df _ => .ok (df * 2, [.num 2]), output_signals := ["b"] }

end Pipeline

namespace Stringify

/-- A transform of the client/server spec as the datetime-stringification
visitors see it: formula transforms (with `expr` and `as`) and everything
else. -/
inductive TransformSpecF where
  | formula (expr : String) (as_ : String)
  | other (tag : ℕ)
  deriving DecidableEq, Repr

/-- The dataset fields the stringification visitors consult. -/
structure DataSpecS where
  name : String
  source : Option String := none
  transform : List TransformSpecF := []
  deriving DecidableEq, Repr

/-- The `local_datetime_fields` map: scoped data variable to the set of
fields to stringify (`HashMap<ScopedVariable, HashSet<String>>` as an
association list of lists). -/
def LdfMap : Type := List ((String × List ℕ) × List String)

/-- Lookup in `local_datetime_fields`. -/
def lookupFields (ldf : LdfMap) (key : String × List ℕ) :
    Option (List String) :=
  (ldf.find? fun e => e.1 = key).map (·.2)

/-- Insertion sort step on strings. -/
def insertSorted (s : String) : List String → List String
  | [] => [s]
  | x :: xs => if s ≤ x then s :: x :: xs else x :: insertSorted s xs

/-- `itertools::sorted` over a `HashSet<String>`: the visitors iterate the
field set in ascending order; the set itself is modeled as a duplicate-free
list, deduplicated before sorting. -/
def sortedFields (fields : List String) : List String :=
  (fields.dedup).foldr insertSorted []

/-- The formula expression `timeFormat(datum['<field>'], '%Y-%m-%d
%H:%M:%S.%L')` built by the server-side visitor. -/
def timeFormatExpr (field : String) : String :=
  "timeFormat(datum[\x27" ++ field ++ "\x27], \x27%Y-%m-%d %H:%M:%S.%L\x27)"

/-- The formula expression `toDate(datum['<field>'])` built for re-parsing. -/
def toDateExpr (field : String) : String :=
  "toDate(datum[\x27" ++ field ++ "\x27])"

/-- Modelled from the spec: `resolve_scope` (spec section 4.7) walks from
`scope` outward to the root until the data name is bound, failing when it
never is. -/
def resolve_scope (ts : Planning.TaskScope) (name : String)
    (scope : List ℕ) : Except VfErr (List ℕ) :=
  if (name, scope) ∈ ts.data_vars then .ok scope
  else if scope.isEmpty then .error .internalErr
  else resolve_scope ts name scope.dropLast
  termination_by scope.length
  decreasing_by
    rename_i _hmem hne0
    have hne : scope ≠ [] := by simpa using hne0
    have hlen : 0 < scope.length := List.length_pos.mpr hne
    rw [List.length_dropLast]
    omega


/-- Translation of `StringifyLocalDatetimeFieldsVisitor::visit_data`
(`vegafusion-core/src/planning/stringify_local_datetimes.rs`, lines
184-218), acting on a server-spec dataset: append one `timeFormat` formula
per recorded field in sorted order, then, when the dataset sources from a
recorded dataset, prepend one `toDate` formula per field of the source. -/
def stringify_visit_data (ldf : LdfMap) (ts : Planning.TaskScope)
    (data : DataSpecS) (scope : List ℕ) : Except VfErr DataSpecS := do
  let data1 :=
    match lookupFields ldf (data.name, scope) with
    | some fields =>
      { data with
        transform := data.transform ++
          (sortedFields fields).map fun f =>
            TransformSpecF.formula (timeFormatExpr f) f }
    | none => data
  match data.source with
  | some source => do
    let resolved ← resolve_scope ts source scope
    match lookupFields ldf (source, resolved) with
    | some fields =>
      return { data1 with
        transform :=
          (sortedFields fields).foldl
            (fun txs f => TransformSpecF.formula (toDateExpr f) f :: txs)
            data1.transform }
    | none => return data1
  | none => return data1

/-- Translation of `FormatLocalDatetimeFieldsVisitor::visit_data`
(stringify_local_datetimes.rs, lines 235-250), acting on a client-spec
dataset: prepend one `toDate` formula per recorded field (iterating in
sorted order, each inserted at index 0). -/
def format_visit_data (ldf : LdfMap) (data : DataSpecS) (scope : List ℕ) :
    DataSpecS :=
  match lookupFields ldf (data.name, scope) with
  | some fields =>
    { data with
      transform :=
        (sortedFields fields).foldl
          (fun txs f => TransformSpecF.formula (toDateExpr f) f :: txs)
          data.transform }
  | none => data


end Stringify

namespace Impute

/-- SQL cell values occurring in the impute scenario. -/
inductive Val where
  | int (i : ℤ)
  | str (s : String)
  | boolean (b : Bool)
  deriving DecidableEq, Repr

/-- A cell is nullable. -/
abbrev Cell : Type := Option Val

/-- A row maps column names to cells. -/
abbrev Row : Type := List (String × Option Val)

/-- A table is an ordered list of rows. -/
abbrev Table : Type := List (List (String × Option Val))

/-- Column access in a row; an absent column reads as NULL (the joined rows
synthesized by the LEFT OUTER JOIN simply lack the inner columns). -/
def rowGet (r : Row) (c : String) : Option Val :=
  match r.find? fun e => e.1 = c with
  | some e => e.2
  | none => none

/-- The `Impute` transform parameters (`field`, `key`, `groupby`) with the
fill value already decoded from `value_json`. -/
structure ImputeTx where
  field : String
  key : String
  groupby : List String
  value : Val
  deriving DecidableEq, Repr

/-- The query synthesized by `single_groupby_sql`
(`vegafusion-rt-datafusion/src/transform/impute.rs`, lines 82-177): the
slots of the fixed `format!` template — final projection columns
(`original_columns` with the `field` fill and the appended `_impute`),
the key and groupby columns of the two DISTINCT subqueries, and the fill
value. -/
structure ImputeQuery where
  original_columns : List String
  field : String
  key : String
  groupby : String
  value : Val
  deriving DecidableEq, Repr

/-- Translation of `single_groupby_sql`: the first groupby column feeds the
template (`tx.groupby.get(0).unwrap()`, a panic when absent, modeled as an
internal error); `original_columns` is the input schema's column list. -/
def single_groupby_sql (tx : ImputeTx) (input_columns : List String) :
    Except VfErr ImputeQuery :=
  match tx.groupby with
  | g :: _ =>
    .ok { original_columns := input_columns
          field := tx.field
          key := tx.key
          groupby := g
          value := tx.value }
  | [] => .error .internalErr

/-- Modelled from the spec: `SELECT DISTINCT c FROM t WHERE c IS NOT NULL`
keeps the first occurrence of each non-null value. -/
def distinctNonNull (t : Table) (c : String) : List Val :=
  (t.filterMap fun r => rowGet r c).dedup

/-- Modelled from the spec: `SELECT *, row_number() AS __row_number FROM t`
numbers the input rows from 1 in order. -/
def withRowNumber (t : Table) : Table :=
  t.enum.map fun e => e.2 ++ [("__row_number", some (Val.int (e.1 + 1)))]

/-- The `__row_number` sort key of a joined row. -/
def rnKey (r : Row) : Option ℤ :=
  match rowGet r "__row_number" with
  | some (.int i) => some i
  | _ => none

/-- `ORDER BY __row_number ASC NULLS LAST` as a comparison. -/
def rnLe (a b : Row) : Bool :=
  match rnKey a, rnKey b with
  | some x, some y => x ≤ y
  | some _, none => true
  | none, some _ => false
  | none, none => true

/-- Stable sorted-insertion of a row. -/
def insertRowSorted (r : Row) : Table → Table
  | [] => [r]
  | x :: xs => if rnLe r x then r :: x :: xs else x :: insertRowSorted r xs

/-- Modelled from the spec: a stable `ORDER BY __row_number ASC NULLS
LAST`. -/
def orderByRn (t : Table) : Table :=
  t.foldr insertRowSorted []

/-- The final projection of the synthesized query: every original column,
with `CASE WHEN field IS NOT NULL THEN field ELSE value END AS field` for
the imputed field, plus
`CASE WHEN field IS NOT NULL THEN CAST(NULL AS BOOLEAN) ELSE true END AS
_impute`. -/
def projectRow (q : ImputeQuery) (r : Row) : Row :=
  (q.original_columns.map fun c =>
    if c = q.field then
      (c, match rowGet r q.field with
          | some v => some v
          | none => some q.value)
    else (c, rowGet r c)) ++
  [("_impute",
    match rowGet r q.field with
    | some _ => none
    | none => some (Val.boolean true))]

/-- Modelled from the spec: standard SQL semantics of the synthesized query
`SELECT <projection> FROM (SELECT DISTINCT key …) CROSS JOIN (SELECT
DISTINCT group …) LEFT OUTER JOIN (SELECT *, row_number() …) USING (key,
group) ORDER BY __row_number ASC NULLS LAST` on a concrete table. -/
def evalImputeQuery (q : ImputeQuery) (t : Table) : Table :=
  let keys := distinctNonNull t q.key
  let groups := distinctNonNull t q.groupby
  let inner := withRowNumber t
  let joined : Table :=
    keys.flatMap fun k =>
      groups.flatMap fun g =>
        let matched := inner.filter fun r =>
          rowGet r q.key = some k ∧ rowGet r q.groupby = some g
        if matched.isEmpty then [[(q.key, some k), (q.groupby, some g)]]
        else matched.map fun m => (q.key, some k) :: (q.groupby, some g) :: m
  (orderByRn joined).map (projectRow q)


/-- The input rows of spec scenario 3:
`[(k=1, g='a', v=10), (k=2, g='a', v=null), (k=1, g='b', v=7)]`. -/
def t4 : Table :=
  [[("k", some (.int 1)), ("g", some (.str "a")), ("v", some (.int 10))],
   [("k", some (.int 2)), ("g", some (.str "a")), ("v", none)],
   [("k", some (.int 1)), ("g", some (.str "b")), ("v", some (.int 7))]]

/-- The impute transform of the scenario: field `v`, key `k`, groupby `g`,
fill value 0. -/
def tx4 : ImputeTx :=
  { field := "v", key := "k", groupby := ["g"], value := .int 0 }

/-- The query the builder synthesizes for the scenario. -/
def q4 : ImputeQuery :=
  { original_columns := ["k", "g", "v"]
    field := "v"
    key := "k"
    groupby := "g"
    value := .int 0 }

/-- The evaluated output of the synthesized query on the scenario input. -/
def out4 : Table :=
  [[("k", some (.int 1)), ("g", some (.str "a")), ("v", some (.int 10)),
    ("_impute", none)],
   [("k", some (.int 2)), ("g", some (.str "a")), ("v", some (.int 0)),
    ("_impute", some (.boolean true))],
   [("k", some (.int 1)), ("g", some (.str "b")), ("v", some (.int 7)),
    ("_impute", none)],
   [("k", some (.int 2)), ("g", some (.str "b")), ("v", some (.int 0)),
    ("_impute", some (.boolean true))]]

end Impute

namespace Planning

/-- Pushing a dataset at `scope` appends it to the data list read back at the
same scope. -/
theorem marktree_data_at_push (scope : List ℕ) (t : MarkTree) (d : DataSpec)
    (t' : MarkTree) (h : t.push_data scope d = .ok t') :
    ∃ prev, t.data_at scope = .ok prev ∧ t'.data_at scope = .ok (prev ++ [d]) := by
  induction scope generalizing t t' with
  | nil =>
    cases t with
    | group ds ms =>
      simp only [MarkTree.push_data, Except.ok.injEq] at h
      subst h
      exact ⟨ds, rfl, rfl⟩
  | cons i rest ih =>
    cases t with
    | group ds ms =>
      simp only [MarkTree.push_data] at h
      cases hg : ms[i]? with
      | none => rw [hg] at h; exact absurd h (by simp)
      | some child =>
        simp only [hg] at h
        cases hc : child.push_data rest d with
        | error e => rw [hc] at h; exact absurd h (by simp [Except.map])
        | ok c =>
          rw [hc] at h
          simp only [Except.map, Except.ok.injEq] at h
          subst h
          obtain ⟨prev, h1, h2⟩ := ih child c hc
          refine ⟨prev, ?_, ?_⟩
          · simpa [MarkTree.data_at, hg] using h1
          · have hi : i < ms.length := by
              by_contra hlt
              rw [List.getElem?_eq_none (Nat.le_of_not_lt hlt)] at hg
              exact Option.noConfusion hg
            have hset : (ms.set i c)[i]? = some c :=
              List.getElem?_set_eq_of_lt c hi
            simpa [MarkTree.data_at, hset] using h2

/-- Pushing a dataset at `scope` on a chart spec appends it to the data list
read back at the same scope. -/
theorem chartspec_data_at_push (scope : List ℕ) (spec : ChartSpecE)
    (d : DataSpec) (spec' : ChartSpecE) (h : spec.push_data scope d = .ok spec') :
    ∃ prev, spec.data_at scope = .ok prev ∧
      spec'.data_at scope = .ok (prev ++ [d]) := by
  cases scope with
  | nil =>
    simp only [ChartSpecE.push_data, Except.ok.injEq] at h
    subst h
    exact ⟨spec.data, rfl, rfl⟩
  | cons i rest =>
    simp only [ChartSpecE.push_data] at h
    cases hg : spec.marks[i]? with
    | none => rw [hg] at h; exact absurd h (by simp)
    | some child =>
      simp only [hg] at h
      cases hc : child.push_data rest d with
      | error e => rw [hc] at h; exact absurd h (by simp [Except.map])
      | ok c =>
        rw [hc] at h
        simp only [Except.map, Except.ok.injEq] at h
        subst h
        obtain ⟨prev, h1, h2⟩ := marktree_data_at_push rest child d c hc
        refine ⟨prev, ?_, ?_⟩
        · simpa [ChartSpecE.data_at, hg] using h1
        · have hi : i < spec.marks.length := by
            by_contra hlt
            rw [List.getElem?_eq_none (Nat.le_of_not_lt hlt)] at hg
            exact Option.noConfusion hg
          have hset : (spec.marks.set i c)[i]? = some c :=
            List.getElem?_set_eq_of_lt c hi
          simpa [ChartSpecE.data_at, hset] using h2

/-- C1: for a dataset classified `PartiallySupported`, the extract visitor
appends to the server spec, at the dataset's scope, a dataset named
`_server_<origname>` carrying a fully supported prefix of the original
transform pipeline; the client dataset keeps exactly the remaining suffix
(server transforms ++ client transforms = original transforms, and the prefix
is maximal because the suffix is empty or starts with an unsupported
transform); the client dataset sources from the server name and its format,
values, on and url fields are cleared. -/
theorem visit_data_partially_supported_split
    (data : DataSpec) (scope : List ℕ) (server_spec : ChartSpecE)
    (ts : TaskScope) (spec' : ChartSpecE) (data' : DataSpec) (ts' : TaskScope)
    (h : visit_data (some .partiallySupported) data scope server_spec ts =
      .ok (spec', data', ts')) :
    ∃ prev server_data,
      server_spec.data_at scope = .ok prev ∧
      spec'.data_at scope = .ok (prev ++ [server_data]) ∧
      server_data.name = "_server_" ++ data.name ∧
      server_data.transform ++ data'.transform = data.transform ∧
      (∀ tx ∈ server_data.transform, tx.supported = true) ∧
      (∀ tx, data'.transform.head? = some tx → tx.supported = false) ∧
      data'.name = data.name ∧
      data'.source = some ("_server_" ++ data.name) ∧
      data'.format = none ∧ data'.values = none ∧
      data'.on_ = none ∧ data'.url = none := by
  simp only [visit_data, bind, Except.bind] at h
  split at h
  · exact absurd h (by simp)
  split at h
  · exact absurd h (by simp)
  split at h
  · exact absurd h (by simp)
  case _ =>
    rename_i x1 sp hp x2 ts1 ha x3 tsf hf
    simp only [pure, Except.pure, Except.ok.injEq, Prod.mk.injEq] at h
    obtain ⟨hspec, hdata, _⟩ := h
    subst hspec
    obtain ⟨prev, h1, h2⟩ := chartspec_data_at_push scope server_spec _ sp hp
    refine ⟨prev, _, h1, h2, rfl, ?_, ?_, ?_, ?_, ?_, ?_, ?_, ?_, ?_⟩
    · rw [← hdata]
      simp only []
      exact List.takeWhile_append_dropWhile (fun x : TransformSpecE => x.supported)
        data.transform
    · intro tx htx
      exact List.mem_takeWhile_imp (by simpa using htx)
    · intro tx htx
      rw [← hdata] at htx
      have hh : (List.dropWhile (fun x : TransformSpecE => x.supported)
          data.transform).head? = some tx := by simpa using htx
      have := List.head?_dropWhile_not (fun x : TransformSpecE => x.supported)
        data.transform
      rw [hh] at this
      exact this
    · rw [← hdata]
    · rw [← hdata]
    · rw [← hdata]
    · rw [← hdata]
    · rw [← hdata]
    · rw [← hdata]

/-- Witness for C1 at spec scenario 4: server prefix `[filter, aggregate]`,
client suffix `[formula_with_unsupported_fn, project]`, client sources from
`_server_d`. -/
theorem visit_data_partially_supported_split_witness :
    ∃ prev server_data,
      ChartSpecE.data_at ⟨[], []⟩ [] = .ok prev ∧
      ChartSpecE.data_at
        ⟨[{ name := "_server_d", url := some "data.csv"
            transform := [c1tx true 0, c1tx true 1] }], []⟩ [] =
        .ok (prev ++ [server_data]) ∧
      server_data.name = "_server_" ++ c1data.name ∧
      server_data.transform ++ [c1tx false 2, c1tx true 3] = c1data.transform ∧
      (∀ tx ∈ server_data.transform, tx.supported = true) ∧
      (∀ tx, ([c1tx false 2, c1tx true 3] : List TransformSpecE).head? = some tx →
        tx.supported = false) ∧
      (c1data.name = c1data.name) ∧
      (some "_server_d" : Option String) = some ("_server_" ++ c1data.name) ∧
      (none : Option String) = none ∧ (none : Option String) = none ∧
      (none : Option String) = none ∧ (none : Option String) = none := by
  have := visit_data_partially_supported_split c1data [] ⟨[], []⟩ ⟨[], []⟩
    ⟨[{ name := "_server_d", url := some "data.csv"
        transform := [c1tx true 0, c1tx true 1] }], []⟩
    { name := "d", source := some "_server_d"
      transform := [c1tx false 2, c1tx true 3] }
    { data_vars := [("_server_d", [])], data_signals := [] }
    (by rfl)
  simpa [c1data] using this

/-- C2 failing input evaluated: a dataset classified `Unsupported` falls into
the wildcard arm of the Rust match, so the visitor clones it into the server
spec and clears every client field except the name, exactly as if it were
`Supported` — the claim instead requires the client dataset to be left
untouched and nothing to be added to the server spec. -/
theorem visit_data_unsupported_clones_to_server :
    visit_data (some .unsupported) c2data [] ⟨[], []⟩ ⟨[], []⟩ =
      .ok (⟨[c2data], []⟩, { name := "d" }, ⟨[], []⟩) ∧
    c2data.url = some "data.csv" ∧
    (DataSpec.url { name := "d" } = none) := by
  exact ⟨rfl, rfl, rfl⟩

end Planning

namespace Bin

/-- Evaluation helper: the floor-log iteration stops at `x = 1`. -/
lemma flogAux_one (f : ℕ) : flogAux 10 f 1 = 0 := by
  rw [flogAux]
  norm_num

/-- Evaluation helper: one division step from `10`. -/
lemma flogAux_ten : flogAux 10 11 10 = 1 := by
  rw [flogAux]
  norm_num [flogAux_one]

/-- Evaluation helper: one division step from `10` with larger fuel. -/
lemma flogAux_hundred : flogAux 10 100 10 = 1 := by
  rw [flogAux]
  norm_num [flogAux_one]

/-- Evaluation helper: two division steps from `100`. -/
lemma flogAux_100 : flogAux 10 101 100 = 2 := by
  rw [flogAux]
  norm_num [flogAux_hundred]

/-- `⌈log_10 10⌉ = 1`. -/
lemma ratCeilLog_10_10 : ratCeilLog 10 10 = 1 := by
  norm_num [ratCeilLog, ratFloorLog, flogAux_ten]

/-- `round(log_10 100) = 2`. -/
lemma ratRoundLog_10_100 : ratRoundLog 10 100 = 2 := by
  norm_num [ratRoundLog, ratFloorLog, flogAux_100]

/-- The step-growing loop leaves `step = 10` untouched for span 100 and
maxbins 10. -/
lemma stepWhile_c3 : stepWhileLoop 10 10 100 binFuel 10 = some 10 := by
  rw [stepWhileLoop]
  norm_num

/-- Step selection for the C3 scenario: span 100 at the default parameters
gives step 10. -/
lemma chooseStep_c3 : chooseStep {} 100 = some 10 := by
  norm_num [chooseStep, ratCeilLog_10_10, ratRoundLog_10_100, max_def,
    stepWhile_c3]

/-- The lower bin edges for start 0, step 10, n 10. -/
lemma bin_starts_c3 : bin_starts 0 10 10 =
    [0, 10, 20, 30, 40, 50, 60, 70, 80, 90] := by
  have h10 : (10 : ℤ).toNat = 10 := by simp
  norm_num [bin_starts, List.range_succ, h10]

end Bin

namespace Bin

/-- C3: for extent `[0, 100]`, maxbins 10, base 10, nice, with no step,
steps, span or anchor given, `calculate_bin_params` returns
`start = 0, stop = 100, step = 10, n = 10` (a value depending only on these
inputs, the embedding being a function of them); under those parameters the
per-row lookup gives the row `v = 23.5` the bin start 20 (so bin end 30),
and the boundary row `v = 100` the last bin start 90 (so bin end 100) rather
than `+∞`. -/
theorem bin_params_and_lookup_scenario :
    calculate_bin_params { maxbins := 10, base := 10, nice := true } 0 100 =
      .ok { start := 0, stop := 100, step := 10, n := 10 } ∧
    lookup_bin_edge (47 / 2) (bin_starts 0 10 10) 10 100 = .val 20 ∧
    (20 : ℚ) + 10 = 30 ∧
    lookup_bin_edge 100 (bin_starts 0 10 10) 10 100 = .val 90 ∧
    (90 : ℚ) + 10 = 100 := by
  refine ⟨?_, ?_, by norm_num, ?_, by norm_num⟩
  · norm_num [calculate_bin_params, chooseStep_c3]
  · rw [bin_starts_c3]
    have h2 : (2 : ℤ).toNat = 2 := by simp
    norm_num [lookup_bin_edge, qAbs, h2]
  · rw [bin_starts_c3]
    norm_num [lookup_bin_edge, qAbs]

/-- C7: `calculate_bin_params` fails with the specification error exactly
when the evaluated extent is decreasing (`extent[0] > extent[1]`); when
`extent[0] ≤ extent[1]` no specification error is produced, whatever the
remaining parameters. -/
theorem calculate_bin_params_extent_check (tx : BinTx) (lo hi : ℚ) :
    calculate_bin_params tx lo hi = .error .specification ↔ hi < lo := by
  unfold calculate_bin_params
  by_cases hc : hi < lo
  · simp [hc]
  · simp only [if_neg hc]
    constructor
    · intro h
      split at h
      · exact absurd h (by simp)
      · exact absurd h (by simp)
    · intro h
      exact absurd h hc

/-- Witness for C7 at a concrete decreasing extent `[5, 3]` and a concrete
increasing extent `[0, 100]`. -/
theorem calculate_bin_params_extent_check_witness :
    calculate_bin_params { maxbins := 10, base := 10, nice := true } 5 3 =
      .error .specification ∧
    ¬(calculate_bin_params { maxbins := 10, base := 10, nice := true } 0 100 =
      .error .specification) := by
  constructor
  · exact (calculate_bin_params_extent_check _ 5 3).mpr (by norm_num)
  · intro h
    have := (calculate_bin_params_extent_check
      { maxbins := 10, base := 10, nice := true } 0 100).mp h
    norm_num at this

end Bin

namespace Member

/-- C5: member access whose object is the `datum` sentinel compiles to the
column named by the property: `datum.foo` gives `Column("foo")`; the computed
property `"b"+"ar"` constant-folds to the string `"bar"` giving
`Column("bar")`; and the mixed-operand property `1+"x"` fails with
`CompilationError`. -/
theorem compile_member_datum_cases :
    compile_member ⟨.ident "datum", .ident "foo", false⟩ {} [] =
      .ok (.column "foo") ∧
    compile_member ⟨.ident "datum", .plus (.strLit "b") (.strLit "ar"), true⟩
      {} [] = .ok (.column "bar") ∧
    compile_member ⟨.ident "datum", .plus (.numLit 1) (.strLit "x"), true⟩
      {} [] = .error .compilation :=
  ⟨rfl, rfl, rfl⟩

/-- C8 counterexample: compiling `foo.length` where `foo` is a non-`datum`
identifier of non-struct (string) type does not resolve to `length(foo)` —
it reaches the `todo!` panic (the `notImplemented` marker), so no expression
is produced at all. -/
theorem compile_member_length_counterexample :
    compile_member ⟨.ident "foo", .ident "length", false⟩
      { signal_scope := [("foo", .str "abc")] } [] =
      .error .notImplemented ∧
    (compile_member ⟨.ident "foo", .ident "length", false⟩
      { signal_scope := [("foo", .str "abc")] } []).isOk = false :=
  ⟨rfl, rfl⟩

/-- C8 (amended): compiling `obj.length` where `obj` is a non-`datum`
identifier whose resolved value has a non-struct type reaches the
unimplemented marker (`todo!`, a panic) rather than resolving to
`length(obj)`. -/
theorem compile_member_length_not_implemented
    (cfg : CompilationConfig) (schema : List (String × DataTypeE))
    (name : String) (s : ScalarE)
    (hname : name ≠ "datum")
    (hlook : cfg.lookupSignal name = some s)
    (hns : ∀ fields, s.get_datatype ≠ .structT fields) :
    compile_member ⟨.ident name, .ident "length", false⟩ cfg schema =
      .error .notImplemented := by
  have hd : isDatum (.ident name) = false := by
    simp [isDatum, hname]
  simp only [compile_member, compile, data_type, hlook, hd, bind, Except.bind,
    pure, Except.pure, Bool.false_eq_true, if_false]
  cases hdt : s.get_datatype with
  | structT fields => exact absurd hdt (hns fields)
  | boolean => simp
  | int64 => simp
  | float64 => simp
  | utf8 => simp
  | listT elem => simp

/-- Witness for the amended C8 at the concrete signal `foo = "abc"`. -/
theorem compile_member_length_not_implemented_witness :
    compile_member ⟨.ident "foo", .ident "length", false⟩
      { signal_scope := [("foo", .str "abc")] } [] =
      .error .notImplemented :=
  compile_member_length_not_implemented
    { signal_scope := [("foo", .str "abc")] } [] "foo" (.str "abc")
    (by decide) rfl (fun fields h => by simp [ScalarE.get_datatype] at h)

end Member

namespace Dialect

/-- C9: for all operand expressions, `x % y` emits `MOD(x, y)` on BigQuery
(the modulo operator is not native there and carries the
`ModulusOpToFunction` transformer); `log2(v)` emits `log(2, v)` with the base
first on Snowflake; and `ln(v)` emits `ln(CAST(v AS DOUBLE PRECISION))` on
Redshift. -/
theorem dialect_rewrites (x y v : SqlExpr) :
    DialectE.bigquery.emitBinaryOp .modulo x y =
      .ok (.function "MOD" [x, y]) ∧
    DialectE.snowflake.emitScalarFunction "log2" [v] =
      .ok (.function "log" [.value "2", v]) ∧
    DialectE.redshift.emitScalarFunction "ln" [v] =
      .ok (.function "ln" [.cast v .doublePrecision]) :=
  ⟨rfl, rfl, rfl⟩

end Dialect

namespace Pipeline

open Member

/-- Lookup across the in-place replacement map used by `insertSignal`. -/
lemma lookupSig_map_replace (m : List (String × ScalarE)) (name other : String)
    (val : ScalarE) (h : other ≠ name) :
    lookupSig (m.map fun e => if e.1 = name then (name, val) else e) other =
      lookupSig m other := by
  have h1 : ¬(name = other) := fun hh => h hh.symm
  induction m with
  | nil => rfl
  | cons e rest ih =>
    by_cases he : e.1 = name
    · have h2 : ¬(e.1 = other) := by rw [he]; exact h1
      simp [lookupSig, he, h1, h2, ih]
    · by_cases heo : e.1 = other
      · simp only [List.map_cons, if_neg he]
        simp [lookupSig, heo]
      · simp only [List.map_cons, if_neg he]
        simp [lookupSig, heo, ih]

/-- Lookup across an appended singleton of a different key. -/
lemma lookupSig_append_other (m : List (String × ScalarE))
    (name other : String) (val : ScalarE) (h : other ≠ name) :
    lookupSig (m ++ [(name, val)]) other = lookupSig m other := by
  have h1 : ¬(name = other) := fun hh => h hh.symm
  induction m with
  | nil => simp [lookupSig, h1]
  | cons e rest ih =>
    by_cases heo : e.1 = other
    · simp [lookupSig, heo]
    · simp [lookupSig, heo, ih]

/-- Looking up the just-inserted key finds the new value. -/
lemma lookupSig_insertSignal_self (m : List (String × ScalarE))
    (name : String) (val : ScalarE) :
    lookupSig (insertSignal m name val) name = some val := by
  unfold insertSignal
  by_cases hmem : m.any (·.1 = name)
  · rw [if_pos hmem]
    induction m with
    | nil => simp at hmem
    | cons e rest ih =>
      by_cases he : e.1 = name
      · simp [lookupSig, he]
      · have hmem' : rest.any (·.1 = name) := by
          simpa [List.any_cons, he] using hmem
        simp [lookupSig, he, ih hmem']
  · rw [if_neg hmem]
    induction m with
    | nil => simp [lookupSig]
    | cons e rest ih =>
      have he : ¬(e.1 = name) := by
        intro hh
        exact hmem (by simp [List.any_cons, hh])
      have hmem' : ¬(rest.any (·.1 = name) = true) := by
        intro hh
        exact hmem (by simp [List.any_cons, hh])
      simp [lookupSig, he, ih hmem']

/-- Looking up a different key is unaffected by an insertion. -/
lemma lookupSig_insertSignal_other (m : List (String × ScalarE))
    (name other : String) (val : ScalarE) (h : other ≠ name) :
    lookupSig (insertSignal m name val) other = lookupSig m other := by
  unfold insertSignal
  by_cases hmem : m.any (·.1 = name)
  · rw [if_pos hmem]
    exact lookupSig_map_replace m name other val h
  · rw [if_neg hmem]
    exact lookupSig_append_other m name other val h

/-- A batch insertion looked up pointwise: the batch's own map wins where it
binds the key, the base map answers elsewhere. -/
lemma lookupSig_insertAll (upd : List (String × ScalarE))
    (m : List (String × ScalarE)) (name : String) :
    lookupSig (insertAll m upd) name =
      ((lookupSig (insertAll [] upd) name).rec (lookupSig m name) some :
        Option ScalarE) := by
  induction upd generalizing m with
  | nil => simp [insertAll, lookupSig]
  | cons e rest ih =>
    show lookupSig (insertAll (insertSignal m e.1 e.2) rest) name = _
    rw [ih (insertSignal m e.1 e.2)]
    rw [show insertAll [] (e :: rest) =
      insertAll (insertSignal [] e.1 e.2) rest from rfl]
    rw [ih (insertSignal [] e.1 e.2)]
    cases hbase : lookupSig (insertAll [] rest) name with
    | some v => simp
    | none =>
      simp only []
      by_cases hn : name = e.1
      · subst hn
        rw [lookupSig_insertSignal_self, lookupSig_insertSignal_self]
      · rw [lookupSig_insertSignal_other _ _ _ _ hn,
          lookupSig_insertSignal_other _ _ _ _ hn]
        simp [lookupSig]

end Pipeline

namespace Pipeline

open Member

/-- Running the loop from an arbitrary accumulated signal map changes neither
success nor the resulting dataframe, and the final map answers every lookup
from the run's own insertions first and from the initial map otherwise. -/
lemma call_loop_acc {δ : Type} (txs : List (TransformE δ)) :
    ∀ (df : δ) (s : List (String × ScalarE)) (cfg : CompilationConfig),
      (call_loop txs df s cfg).map Prod.fst =
        (call_loop txs df [] cfg).map Prod.fst ∧
      ∀ d sigs d0 sigs0, call_loop txs df s cfg = .ok (d, sigs) →
        call_loop txs df [] cfg = .ok (d0, sigs0) →
        ∀ name, lookupSig sigs name =
          ((lookupSig sigs0 name).rec (lookupSig s name) some :
            Option ScalarE) := by
  induction txs with
  | nil =>
    intro df s cfg
    refine ⟨rfl, ?_⟩
    intro d sigs d0 sigs0 h1 h2 name
    simp only [call_loop, Except.ok.injEq, Prod.mk.injEq] at h1 h2
    rw [← h1.2, ← h2.2]
    simp [lookupSig]
  | cons tx rest ih =>
    intro df s cfg
    cases hr : tx.call df cfg with
    | error e =>
      constructor
      · simp [call_loop, bind, Except.bind, hr]
      · intro d sigs d0 sigs0 h1 h2
        simp [call_loop, bind, Except.bind, hr] at h1
    | ok r =>
      have hred : ∀ (s' : List (String × ScalarE)),
          call_loop (tx :: rest) df s' cfg =
            call_loop rest r.1 (insertAll s' (tx.output_signals.zip r.2))
              { cfg with signal_scope :=
                  insertAll cfg.signal_scope (tx.output_signals.zip r.2) } := by
        intro s'
        simp [call_loop, bind, Except.bind, hr]
      obtain ⟨ihs1, ihs2⟩ := ih r.1 (insertAll s (tx.output_signals.zip r.2))
        { cfg with signal_scope :=
            insertAll cfg.signal_scope (tx.output_signals.zip r.2) }
      obtain ⟨ihe1, ihe2⟩ := ih r.1 (insertAll [] (tx.output_signals.zip r.2))
        { cfg with signal_scope :=
            insertAll cfg.signal_scope (tx.output_signals.zip r.2) }
      constructor
      · rw [hred s, hred [], ihs1, ihe1]
      · intro d sigs d0 sigs0 h1 h2 name
        rw [hred s] at h1
        rw [hred []] at h2
        have hmid : (call_loop rest r.1 []
            { cfg with signal_scope :=
                insertAll cfg.signal_scope (tx.output_signals.zip r.2) }).map
            Prod.fst = .ok d := by
          rw [← ihs1, h1]
          rfl
        cases hm : call_loop rest r.1 []
            { cfg with signal_scope :=
                insertAll cfg.signal_scope (tx.output_signals.zip r.2) } with
        | error e => rw [hm] at hmid; exact absurd hmid (by simp [Except.map])
        | ok m =>
          have hs := ihs2 d sigs m.1 m.2 h1 (by rw [hm])
          have he := ihe2 d0 sigs0 m.1 m.2 h2 (by rw [hm])
          rw [hs name, he name]
          cases hmn : lookupSig m.2 name with
          | some v => simp
          | none =>
            simp only []
            exact lookupSig_insertAll (tx.output_signals.zip r.2) s name

/-- C10: `TransformPipeline::call` evaluates the transforms strictly in list
order — the head transform runs against the incoming config, its emitted
signal values are zipped with its output-signal names and inserted into the
config's signal scope before the remaining transforms run — and the returned
signal map answers each output-signal name with the emitted value, later
transforms overriding earlier ones on a shared name. -/
theorem pipeline_call_sequential {δ : Type} (tx : TransformE δ)
    (rest : List (TransformE δ)) (df : δ) (cfg : CompilationConfig)
    (d : δ) (sigs : List (String × ScalarE))
    (h : TransformPipeline.call (tx :: rest) df cfg = .ok (d, sigs)) :
    ∃ df' vals tailSigs,
      tx.call df cfg = .ok (df', vals) ∧
      TransformPipeline.call rest df'
        { cfg with signal_scope :=
            insertAll cfg.signal_scope (tx.output_signals.zip vals) } =
        .ok (d, tailSigs) ∧
      ∀ name, lookupSig sigs name =
        ((lookupSig tailSigs name).rec
          (lookupSig (insertAll [] (tx.output_signals.zip vals)) name) some :
          Option ScalarE) := by
  unfold TransformPipeline.call at h ⊢
  cases hr : tx.call df cfg with
  | error e => simp [call_loop, bind, Except.bind, hr] at h
  | ok r =>
    have hred : call_loop (tx :: rest) df [] cfg =
        call_loop rest r.1 (insertAll [] (tx.output_signals.zip r.2))
          { cfg with signal_scope :=
              insertAll cfg.signal_scope (tx.output_signals.zip r.2) } := by
      simp [call_loop, bind, Except.bind, hr]
    rw [hred] at h
    obtain ⟨acc1, acc2⟩ := call_loop_acc rest r.1
      (insertAll [] (tx.output_signals.zip r.2))
      { cfg with signal_scope :=
          insertAll cfg.signal_scope (tx.output_signals.zip r.2) }
    have hok : (call_loop rest r.1 []
        { cfg with signal_scope :=
            insertAll cfg.signal_scope (tx.output_signals.zip r.2) }).map
        Prod.fst = .ok d := by
      rw [← acc1, h]
      rfl
    cases hm : call_loop rest r.1 []
        { cfg with signal_scope :=
            insertAll cfg.signal_scope (tx.output_signals.zip r.2) } with
    | error e => rw [hm] at hok; exact absurd hok (by simp [Except.map])
    | ok m =>
      rw [hm] at hok
      simp only [Except.map, Except.ok.injEq] at hok
      refine ⟨r.1, r.2, m.2, rfl, ?_, ?_⟩
      · rw [hm, ← hok]
      · intro name
        exact acc2 d sigs m.1 m.2 h (by rw [hm]) name

end Pipeline

namespace Pipeline

open Member

/-- Witness for C10 on the two-transform pipeline `[w1, w2]`. -/
theorem pipeline_call_sequential_witness :
    ∃ (df' : ℕ) (vals : List ScalarE) (tailSigs : List (String × ScalarE)),
      w1.call 0 {} = .ok (df', vals) ∧
      TransformPipeline.call [w2] df'
        { signal_scope := insertAll [] (w1.output_signals.zip vals) } =
        .ok (2, tailSigs) ∧
      ∀ name,
        lookupSig [("a", ScalarE.num 1), ("b", ScalarE.num 2)] name =
          ((lookupSig tailSigs name).rec
            (lookupSig (insertAll [] (w1.output_signals.zip vals)) name) some :
            Option ScalarE) :=
  pipeline_call_sequential w1 [w2] 0 {} 2
    [("a", .num 1), ("b", .num 2)] (by rfl)

end Pipeline

namespace Stringify

/-- Folding cons over a list prepends the reversed image. -/
lemma foldl_cons_eq_reverse_map (g : String → TransformSpecF)
    (l : List String) (init : List TransformSpecF) :
    l.foldl (fun txs f => g f :: txs) init = (l.reverse.map g) ++ init := by
  induction l generalizing init with
  | nil => rfl
  | cons x xs ih =>
    simp only [List.foldl_cons, List.reverse_cons, List.map_append]
    rw [ih (g x :: init)]
    simp

end Stringify

namespace Stringify

/-- C6: for every dataset recorded in `local_datetime_fields` (a
server-to-client dataset feeding a mark channel bound to a non-UTC time
scale) with field set `fields`, the server-spec visitor appends to the
dataset one formula transform
`timeFormat(datum['<field>'], '%Y-%m-%d %H:%M:%S.%L')` with `as` the field,
per field in sorted order; and the client-spec visitor prepends to the
corresponding client dataset one formula transform `toDate(datum['<field>'])`
per field, each inserted at the front of the transform list. -/
theorem datetime_bridge (ldf : LdfMap) (ts : Planning.TaskScope)
    (dataS dataC : DataSpecS) (scope : List ℕ) (fields : List String)
    (hrecS : lookupFields ldf (dataS.name, scope) = some fields)
    (hsrc : dataS.source = none)
    (hrecC : lookupFields ldf (dataC.name, scope) = some fields) :
    stringify_visit_data ldf ts dataS scope =
      .ok { dataS with
        transform := dataS.transform ++
          (sortedFields fields).map fun f =>
            TransformSpecF.formula (timeFormatExpr f) f } ∧
    format_visit_data ldf dataC scope =
      { dataC with
        transform :=
          ((sortedFields fields).reverse.map fun f =>
            TransformSpecF.formula (toDateExpr f) f) ++ dataC.transform } := by
  constructor
  · simp [stringify_visit_data, hrecS, hsrc, pure, Except.pure]
  · unfold format_visit_data
    rw [hrecC]
    show DataSpecS.mk dataC.name dataC.source _ = _
    rw [foldl_cons_eq_reverse_map]

/-- Witness for C6 at spec scenario 5: the single field `date` of dataset
`source` at the root scope. -/
theorem datetime_bridge_witness :
    stringify_visit_data [(("source", []), ["date"])] ⟨[], []⟩
      { name := "source" } [] =
      .ok { name := "source"
            transform := [.formula (timeFormatExpr "date") "date"] } ∧
    format_visit_data [(("source", []), ["date"])] { name := "source" } [] =
      { name := "source"
        transform := [.formula (toDateExpr "date") "date"] } := by
  have h := datetime_bridge [(("source", []), ["date"])] ⟨[], []⟩
    { name := "source" } { name := "source" } [] ["date"] rfl rfl rfl
  simpa [sortedFields, insertSorted, List.dedup] using h

end Stringify

namespace Impute

/-- C4 counterexample: the `_impute` column is not "true for synthesized
rows and null otherwise" — the input row `(k=2, g='a')` (present in the
input, hence not synthesized) has a null field, so the `CASE WHEN v IS NOT
NULL THEN NULL ELSE true END` projection also marks it true. -/
theorem impute_flag_counterexample :
    single_groupby_sql tx4 ["k", "g", "v"] = .ok q4 ∧
    evalImputeQuery q4 t4 = out4 ∧
    [("k", some (.int 2)), ("g", some (.str "a")), ("v", none)] ∈ t4 ∧
    rowGet (out4.getD 1 []) "_impute" = some (.boolean true) := by
  refine ⟨rfl, by rfl, by decide, by rfl⟩

/-- C4 (amended): the impute transform with one groupby synthesizes the
cross-join / left-outer-join / order-by query; on the scenario input the
output holds all four `(k, g)` combinations in input order with synthesized
rows last, the null field values filled with 0, the synthesized row is
`(2, 'b', 0, _impute = true)`, and `_impute` is true exactly for rows whose
field is null after the join (all synthesized rows and the input rows with a
null field) and null otherwise. -/
theorem impute_single_groupby_scenario :
    single_groupby_sql tx4 ["k", "g", "v"] = .ok q4 ∧
    evalImputeQuery q4 t4 = out4 ∧
    [("k", some (.int 2)), ("g", some (.str "b")), ("v", some (.int 0)),
      ("_impute", some (.boolean true))] ∈ evalImputeQuery q4 t4 ∧
    (∀ (q : ImputeQuery) (j : List (String × Option Val)),
      (projectRow q j).getLast? =
        some ("_impute",
          match rowGet j q.field with
          | some _ => none
          | none => some (Val.boolean true))) := by
  refine ⟨rfl, by rfl, by decide, ?_⟩
  intro q j
  unfold projectRow
  simp

end Impute
